import Mathlib

/-!
Verification of the spectrum-visualizer rendering core.

Shallow embedding of the algorithmic parts of the code base:
the audio processor's band computation and playback controls
(src/utils/audio-processor.js), the base visualizer's frame clock,
settings clamping and resize guard (src/visualizations/base-visualizer.js),
the bar renderer's smoothing / peak-hold physics
(src/visualizations/bars-visualizer.js and the variant revision in
src/visualizations/waveform-visualizer.js), the particle pools of the
particles and circular renderers, the bass-onset refractory logic, and
the terrain height grid of the pseudo-3D terrain renderer.

JavaScript numbers are modelled as rationals; uint8 spectra are rational
values (clamps in the code make the proofs independent of the 0..255
range wherever possible).
-/

namespace SpectrumViz

/-- BaseVisualizer.clamp: Math.max(min, Math.min(max, value)). -/
def clamp (value lo hi : ℚ) : ℚ := max lo (min hi value)

/-! ## Frame clock (BaseVisualizer.animate, base-visualizer.js lines 346-378) -/

/-- The mutable clock fields of BaseVisualizer: this.time (simulation time,
seconds) and this.lastFrameTime (milliseconds, from performance.now()). -/
structure ClockState where
  time : ℚ
  lastFrameTime : ℚ

/-- One pass of the clock part of BaseVisualizer.animate:
deltaTime = Math.min((now - this.lastFrameTime) / 1000, 0.1);
this.lastFrameTime = now; this.time += deltaTime * animationSpeed.
Returns the new state and the computed deltaTime. -/
def animateClock (animationSpeed : ℚ) (s : ClockState) (now : ℚ) : ClockState × ℚ :=
  let deltaTime := min ((now - s.lastFrameTime) / 1000) (1/10)
  (⟨s.time + deltaTime * animationSpeed, now⟩, deltaTime)

/-! ## Settings store (BaseVisualizer.updateSettings, base-visualizer.js lines 136-156) -/

/-- The numeric/boolean settings of BaseVisualizer relevant to clamping. -/
structure Settings where
  sensitivity : ℚ
  animationSpeed : ℚ
  barCount : ℚ
  barSpacing : ℚ
  mirrorEffect : Bool

/-- Defaults assigned in the BaseVisualizer constructor. -/
def defaultSettings : Settings :=
  { sensitivity := 1, animationSpeed := 1, barCount := 64
    barSpacing := 2, mirrorEffect := false }

/-- A partial settings object: each field optional, as in the duck-typed
newSettings argument of updateSettings. -/
structure SettingsUpdate where
  sensitivity : Option ℚ := none
  animationSpeed : Option ℚ := none
  barCount : Option ℚ := none
  barSpacing : Option ℚ := none
  mirrorEffect : Option Bool := none

/-- BaseVisualizer.updateSettings: clamps sensitivity and animationSpeed to
[0.1, 5.0] and barCount to [8, 256] when present, then Object.assign merges
every provided field into this.settings. -/
def updateSettings (s : Settings) (u : SettingsUpdate) : Settings :=
  { sensitivity :=
      match u.sensitivity with
      | some v => clamp v (1/10) 5
      | none => s.sensitivity
    animationSpeed :=
      match u.animationSpeed with
      | some v => clamp v (1/10) 5
      | none => s.animationSpeed
    barCount :=
      match u.barCount with
      | some v => clamp v 8 256
      | none => s.barCount
    barSpacing := u.barSpacing.getD s.barSpacing
    mirrorEffect := u.mirrorEffect.getD s.mirrorEffect }

/-! ## Frequency bands (AudioProcessor.getFrequencyBands, audio-processor.js lines 361-384) -/

/-- The record returned by getFrequencyBands. -/
structure Bands where
  bass : ℚ
  mid : ℚ
  treble : ℚ

/-- AudioProcessor.getFrequencyBands: third = Math.floor(data.length / 3);
bass sums bins [0, third), mid sums [third, 2*third), treble sums
[2*third, data.length); each of the three sums is divided by third. -/
def getFrequencyBands (data : List ℚ) : Bands :=
  let third : ℕ := data.length / 3
  { bass := (data.take third).sum / third
    mid := ((data.drop third).take third).sum / third
    treble := (data.drop (2 * third)).sum / third }

/-! ## Exponential smoothing (bars-visualizer.js lines 58-60,
circular-visualizer.js lines 52-55) -/

/-- One per-bucket smoothing step:
smoothed += (raw - smoothed) * alpha. -/
def smoothStep (alpha raw s : ℚ) : ℚ := s + (raw - s) * alpha

/-- n smoothing ticks with the raw input held constant. -/
def smoothIter (alpha raw s : ℚ) : ℕ → ℚ
  | 0 => s
  | n + 1 => smoothStep alpha raw (smoothIter alpha raw s n)

/-! ## Audio processor playback controls (audio-processor.js lines 236-302) -/

/-- The state of the HTMLAudioElement held by the processor. -/
structure AudioElem where
  currentTime : ℚ
  duration : ℚ
  paused : Bool

/-- The kind of source currently attached (this.currentSource). -/
inductive SourceKind
  | file
  | buffer
  | mic
deriving DecidableEq

/-- The AudioProcessor fields touched by play/pause/seek. this.audioElement
and this.source are nullable; hasSource models this.source being non-null and
sourceStarted models a buffer source on which start(0) was called. -/
structure AudioProcState where
  audioElement : Option AudioElem
  hasSource : Bool
  sourceStarted : Bool
  currentSource : Option SourceKind
  isPlaying : Bool

namespace AudioProcessor

/-- AudioProcessor.play: plays the element when a file source is attached,
starts the buffer source when a buffer source is attached, otherwise falls
through with no effect. -/
def play (st : AudioProcState) : AudioProcState :=
  if st.audioElement.isSome ∧ st.currentSource = some .file then
    { st with
      audioElement := st.audioElement.map (fun e => { e with paused := false })
      isPlaying := true }
  else if st.hasSource ∧ st.currentSource = some .buffer then
    { st with sourceStarted := true, isPlaying := true }
  else st

/-- AudioProcessor.pause: pauses the element when a file source is attached,
otherwise no effect. -/
def pause (st : AudioProcState) : AudioProcState :=
  if st.audioElement.isSome ∧ st.currentSource = some .file then
    { st with
      audioElement := st.audioElement.map (fun e => { e with paused := true })
      isPlaying := false }
  else st

/-- AudioProcessor.seek: sets audioElement.currentTime = position * duration
when an element exists, otherwise no effect. -/
def seek (st : AudioProcState) (position : ℚ) : AudioProcState :=
  match st.audioElement with
  | some e =>
      { st with audioElement := some { e with currentTime := position * e.duration } }
  | none => st

end AudioProcessor

/-! ## Bar renderer peak-hold physics (bars-visualizer.js lines 57-73 and the
variant revision of BarsVisualizer in waveform-visualizer.js lines 257-265) -/

/-- Per-bucket state of the main BarsVisualizer: smoothedData[i], peakData[i]
and peakVelocity[i]. -/
structure BarState where
  smoothedData : ℚ
  peakData : ℚ
  peakVelocity : ℚ

/-- One tick of the smoothing and peak physics in BarsVisualizer.draw
(smoothingFactor 0.25): smoothed += (d - smoothed) * 0.25; when smoothed
overtakes the peak, the peak snaps to it and the velocity resets; otherwise
velocity += 0.5, peak -= velocity * 0.5, and the peak is floored at the
smoothed value with Math.max. -/
def barsPeakStep (st : BarState) (d : ℚ) : BarState :=
  let s := st.smoothedData + (d - st.smoothedData) * (25/100)
  if st.peakData < s then
    { smoothedData := s, peakData := s, peakVelocity := 0 }
  else
    let v := st.peakVelocity + 1/2
    { smoothedData := s, peakData := max (st.peakData - v * (1/2)) s, peakVelocity := v }

/-- Per-bucket state of the variant BarsVisualizer revision (no velocity). -/
structure BarStateV where
  smoothedData : ℚ
  peakData : ℚ

/-- One tick of the variant revision: smoothed += (d - smoothed) * 0.3;
when smoothed overtakes the peak, the peak snaps to it; otherwise
peakData *= 0.98 with no floor at the smoothed value. -/
def barsPeakStepVariant (st : BarStateV) (d : ℚ) : BarStateV :=
  let s := st.smoothedData + (d - st.smoothedData) * (3/10)
  if st.peakData < s then
    { smoothedData := s, peakData := s }
  else
    { smoothedData := s, peakData := st.peakData * (98/100) }

/-! ## Bass-onset refractory logic (base-visualizer.js, ParticlesVisualizer.draw:
flow-field revision lines 821-831 with threshold 160 and interval 0.12 s;
earlier revision lines 456-462 with threshold 180 and interval 0.15 s) -/

/-- Per-tick input to the animation loop: the capped deltaTime computed by
BaseVisualizer.animate and the bass band value read that tick. -/
structure TickInput where
  delta : ℚ
  bass : ℚ

/-- Runs the loop's time accumulation plus the bass-hit test of
ParticlesVisualizer.draw over a list of ticks, collecting the simulation
times at which onsets fire. Each tick: time += delta * speed; an onset fires
when bass > threshold and time - lastBassHit > interval, and then
lastBassHit = time. -/
def onsetTimes (threshold interval speed : ℚ) :
    ℚ → ℚ → List TickInput → List ℚ
  | _, _, [] => []
  | time, lastBassHit, inp :: rest =>
    let t := time + inp.delta * speed
    if threshold < inp.bass ∧ interval < t - lastBassHit then
      t :: onsetTimes threshold interval speed t t rest
    else
      onsetTimes threshold interval speed t lastBassHit rest

/-! ## Particle pool caps (base-visualizer.js ParticlesVisualizer.spawnParticles
lines 968-1053 and createExplosion lines 863-893, caps 600 and 500 across the
two revisions; circular-visualizer.js updateAndDrawParticles lines 577-612,
cap 80; updateOrbitParticles lines 187-211, cap 30) -/

/-- The guarded spawn loop shared by ParticlesVisualizer.spawnParticles
(loop condition i < spawnRate and length < maxParticles) and
ParticlesVisualizer.createExplosion (break when length >= maxParticles):
push one particle per iteration, stopping once the pool reaches the cap.
n is the number of iterations the audio input asked for. -/
def spawnCapped (maxParticles : ℕ) : ℕ → ℕ → ℕ
  | len, 0 => len
  | len, n + 1 => if len < maxParticles then spawnCapped maxParticles (len + 1) n else len

/-- Pool-size-relevant quantities of one ParticlesVisualizer.draw tick:
the explosion count (0 on ticks without a bass hit), the spawnParticles
iteration count, and how many particles updateParticles removed. -/
structure ParticlesTickInput where
  explosionCount : ℕ
  spawnCount : ℕ
  deaths : ℕ

/-- One ParticlesVisualizer.draw tick as it affects the pool size:
createExplosion, then spawnParticles, then updateParticles removals. -/
def particlesTick (maxParticles : ℕ) (len : ℕ) (inp : ParticlesTickInput) : ℕ :=
  spawnCapped maxParticles (spawnCapped maxParticles len inp.explosionCount)
    inp.spawnCount - inp.deaths

/-- Pool size after a sequence of draw ticks starting from the empty pool. -/
def particlesRun (maxParticles : ℕ) (inps : List ParticlesTickInput) : ℕ :=
  inps.foldl (particlesTick maxParticles) 0

/-- CircularVisualizer.updateAndDrawParticles burst spawn: when bass is high
(hit) and the pool is under the 80-particle cap, push
count = Math.min(Math.floor(3 + clampedBass * 5), 80 - length) particles;
k models Math.floor(clampedBass * 5). -/
def circularBurstSpawn (len : ℕ) (hit : Bool) (k : ℕ) : ℕ :=
  if hit ∧ len < 80 then len + min (3 + k) (80 - len) else len

/-- One updateAndDrawParticles tick: whether the spawn condition fired, the
bass-dependent extra count, and how many particles the update loop removed. -/
structure CircularTickInput where
  hit : Bool
  k : ℕ
  deaths : ℕ

/-- One updateAndDrawParticles tick on the pool size: burst spawn, trim to
the cap, then the update loop removing dead or out-of-bounds particles. -/
def circularTick (len : ℕ) (inp : CircularTickInput) : ℕ :=
  min (circularBurstSpawn len inp.hit inp.k) 80 - inp.deaths

/-- Burst pool size after a sequence of ticks starting from the empty pool. -/
def circularRun (inps : List CircularTickInput) : ℕ :=
  inps.foldl circularTick 0

/-- CircularVisualizer.updateOrbitParticles: spawn one orbit particle per
tick while under the 30-particle cap, then trim to the cap; orbit particles
are never removed. -/
def orbitTick (len : ℕ) : ℕ := min (if len < 30 then len + 1 else len) 30

/-- Orbit pool size after n ticks starting from the empty pool. -/
def orbitRun (n : ℕ) : ℕ := orbitTick^[n] 0

/-! ## Canvas dimension guard (bars-visualizer.js lines 19-30,
base-visualizer.js handleResize lines 96-115) -/

/-- Canvas attribute dimensions plus the cached this.width/this.height,
the latter as integers where 0 also stands for a falsy unset value. -/
structure VisDims where
  canvasW : ℕ
  canvasH : ℕ
  width : ℤ
  height : ℤ

/-- BaseVisualizer.handleResize: when a parent container exists, take
clientWidth || offsetWidth || 800 (modelled as the container measurement
with the 800/600 fallback when it is zero) and assign it to the canvas when
positive; then this.width = canvas.width || 800 and
this.height = canvas.height || 600. -/
def handleResize (container : Option (ℕ × ℕ)) (st : VisDims) : VisDims :=
  let cdims :=
    match container with
    | some (cw0, ch0) =>
        let w := if cw0 ≠ 0 then cw0 else 800
        let h := if ch0 ≠ 0 then ch0 else 600
        if 0 < w ∧ 0 < h then (w, h) else (st.canvasW, st.canvasH)
    | none => (st.canvasW, st.canvasH)
  { canvasW := cdims.1, canvasH := cdims.2
    width := if cdims.1 ≠ 0 then (cdims.1 : ℤ) else 800
    height := if cdims.2 ≠ 0 then (cdims.2 : ℤ) else 600 }

/-- What one draw call did to the raster surface. -/
structure DrawEffect where
  resized : Bool
  cleared : Bool
  drewContent : Bool

/-- The dimension guard opening BarsVisualizer.draw (shared by every
renderer's draw): a non-positive or unset width/height triggers
handleResize plus clear and returns before any content drawing; otherwise
the frame is cleared and its content drawn. -/
def drawTick (container : Option (ℕ × ℕ)) (st : VisDims) : VisDims × DrawEffect :=
  if st.width ≤ 0 ∨ st.height ≤ 0 then
    (handleResize container st, ⟨true, true, false⟩)
  else
    (st, ⟨false, true, true⟩)

/-! ## Terrain height grid (TerrainVisualizer in src/unnamed/part_000:
initTerrain lines 19-27, updateTerrain lines 71-103) -/

/-- this.terrainWidth = 60. -/
def terrainWidth : ℕ := 60

/-- this.terrainDepth = 40. -/
def terrainDepth : ℕ := 40

/-- TerrainVisualizer.initTerrain: terrainDepth rows of terrainWidth zeros. -/
def initTerrain : List (List ℚ) :=
  List.replicate terrainDepth (List.replicate terrainWidth 0)

/-- The new far row synthesized by TerrainVisualizer.updateTerrain:
for each x, dataIndex = Math.floor((x / terrainWidth) * data.length),
value = clamp((data[dataIndex] || 0) / 255, 0, 1),
centerFactor = 1 - |x - terrainWidth/2| / (terrainWidth/2) (both halves 30),
height = Math.min(value * 150 * centerFactor * clampedSensitivity, 200)
where clampedSensitivity = clamp(sensitivity, 0.1, 3.0). -/
def newTerrainRow (data : List ℚ) (sensitivity : ℚ) : List ℚ :=
  let cs := clamp sensitivity (1/10) 3
  (List.range terrainWidth).map fun x =>
    let dataIndex := x * data.length / terrainWidth
    let value := clamp ((data.getD dataIndex 0) / 255) 0 1
    let centerFactor := 1 - |(x : ℚ) - 30| / 30
    min (value * 150 * centerFactor * cs) 200

/-- TerrainVisualizer.updateTerrain: shift every row one step toward the
camera attenuated by 0.95 (row z receives 0.95 * row (z-1), for z from
terrainDepth-1 down to 1), then overwrite row 0 with the new far row. -/
def updateTerrain (terrain : List (List ℚ)) (data : List ℚ) (sensitivity : ℚ) :
    List (List ℚ) :=
  newTerrainRow data sensitivity ::
    (terrain.dropLast.map (fun row => row.map (fun c => c * (95/100))))

end SpectrumViz

namespace SpectrumViz

/-! ## Theorems -/

/-- Claim C5: on every animation tick the frame clock computes
delta = min(now - lastTickTime, 0.1 s) and advances simulation time by
exactly delta * animationSpeed; simulation time is non-decreasing and a
single tick advances it by at most 0.1 * animationSpeed, however long the
host stalled (now arbitrarily far beyond lastFrameTime). -/
theorem frame_clock_bounded_delta (speed : ℚ) (s : ClockState) (now : ℚ)
    (hmono : s.lastFrameTime ≤ now) (hspeed : 0 ≤ speed) :
    (animateClock speed s now).2 = min ((now - s.lastFrameTime) / 1000) (1/10) ∧
    (animateClock speed s now).1.time = s.time + (animateClock speed s now).2 * speed ∧
    s.time ≤ (animateClock speed s now).1.time ∧
    (animateClock speed s now).1.time - s.time ≤ (1/10) * speed := by
  refine ⟨rfl, rfl, ?_, ?_⟩
  · have hd : 0 ≤ min ((now - s.lastFrameTime) / 1000) (1/10) ∨
        min ((now - s.lastFrameTime) / 1000) (1/10) = (now - s.lastFrameTime) / 1000 ∨
        True := Or.inr (Or.inr trivial)
    have h0 : 0 ≤ (now - s.lastFrameTime) / 1000 := by
      apply div_nonneg (by linarith) (by norm_num)
    have : 0 ≤ min ((now - s.lastFrameTime) / 1000) (1/10) :=
      le_min h0 (by norm_num)
    simp only [animateClock]
    nlinarith [mul_nonneg this hspeed]
  · have hle : min ((now - s.lastFrameTime) / 1000) (1/10) ≤ 1/10 := min_le_right _ _
    simp only [animateClock]
    nlinarith [mul_le_mul_of_nonneg_right hle hspeed]

/-- Witness for frame_clock_bounded_delta at now = 5000 ms after a 5-second
stall from lastFrameTime = 0 with animationSpeed = 1. -/
theorem frame_clock_bounded_delta_witness :
    (animateClock 1 ⟨0, 0⟩ 5000).2 = min ((5000 - (0:ℚ)) / 1000) (1/10) ∧
    (animateClock 1 ⟨0, 0⟩ 5000).1.time = 0 + (animateClock 1 ⟨0, 0⟩ 5000).2 * 1 ∧
    (0:ℚ) ≤ (animateClock 1 ⟨0, 0⟩ 5000).1.time ∧
    (animateClock 1 ⟨0, 0⟩ 5000).1.time - 0 ≤ (1/10) * 1 :=
  frame_clock_bounded_delta 1 ⟨0, 0⟩ 5000 (by norm_num) (by norm_num)

/-- Claim C6: out-of-range numeric settings writes are clamped, not rejected:
after any sequence of partial updates starting from the defaults, the stored
sensitivity and animationSpeed lie in [0.1, 5.0] and barCount in [8, 256];
and writing sensitivity = 10.0 to any settings object stores exactly 5.0. -/
theorem settings_writes_clamped (us : List SettingsUpdate) :
    (1/10 ≤ (us.foldl updateSettings defaultSettings).sensitivity ∧
      (us.foldl updateSettings defaultSettings).sensitivity ≤ 5) ∧
    (1/10 ≤ (us.foldl updateSettings defaultSettings).animationSpeed ∧
      (us.foldl updateSettings defaultSettings).animationSpeed ≤ 5) ∧
    (8 ≤ (us.foldl updateSettings defaultSettings).barCount ∧
      (us.foldl updateSettings defaultSettings).barCount ≤ 256) ∧
    (∀ s : Settings,
      (updateSettings s { sensitivity := some 10 }).sensitivity = 5) := by
  have main : ∀ (us : List SettingsUpdate) (s : Settings),
      (1/10 ≤ s.sensitivity ∧ s.sensitivity ≤ 5) →
      (1/10 ≤ s.animationSpeed ∧ s.animationSpeed ≤ 5) →
      (8 ≤ s.barCount ∧ s.barCount ≤ 256) →
      ((1/10 ≤ (us.foldl updateSettings s).sensitivity ∧
          (us.foldl updateSettings s).sensitivity ≤ 5) ∧
        (1/10 ≤ (us.foldl updateSettings s).animationSpeed ∧
          (us.foldl updateSettings s).animationSpeed ≤ 5) ∧
        (8 ≤ (us.foldl updateSettings s).barCount ∧
          (us.foldl updateSettings s).barCount ≤ 256)) := by
    intro us
    induction us with
    | nil => intro s h1 h2 h3; exact ⟨h1, h2, h3⟩
    | cons u rest ih =>
        intro s h1 h2 h3
        apply ih
        · cases hu : u.sensitivity with
          | none => simpa [updateSettings, hu] using h1
          | some v =>
              simp only [updateSettings, hu, clamp]
              constructor
              · exact le_max_left _ _
              · exact max_le (by norm_num) (min_le_left _ _)
        · cases hu : u.animationSpeed with
          | none => simpa [updateSettings, hu] using h2
          | some v =>
              simp only [updateSettings, hu, clamp]
              constructor
              · exact le_max_left _ _
              · exact max_le (by norm_num) (min_le_left _ _)
        · cases hu : u.barCount with
          | none => simpa [updateSettings, hu] using h3
          | some v =>
              simp only [updateSettings, hu, clamp]
              constructor
              · exact le_max_left _ _
              · exact max_le (by norm_num) (min_le_left _ _)
  have base := main us defaultSettings (by norm_num [defaultSettings])
    (by norm_num [defaultSettings]) (by norm_num [defaultSettings])
  refine ⟨base.1, base.2.1, base.2.2, ?_⟩
  intro s
  simp only [updateSettings, clamp]
  norm_num [min_def, max_def]

/-- Claim C9: play, pause and seek are no-ops leaving the processor state
unchanged when no source is attached (audioElement null and source null),
for every position argument. -/
theorem playback_noop_without_source (st : AudioProcState) (position : ℚ)
    (helem : st.audioElement = none) (hsrc : st.hasSource = false) :
    AudioProcessor.play st = st ∧
    AudioProcessor.pause st = st ∧
    AudioProcessor.seek st position = st := by
  refine ⟨?_, ?_, ?_⟩
  · simp [AudioProcessor.play, helem, hsrc]
  · simp [AudioProcessor.pause, helem]
  · simp [AudioProcessor.seek, helem]

/-- Witness for playback_noop_without_source on the detached state (as after
AudioProcessor.stop). -/
theorem playback_noop_without_source_witness :
    AudioProcessor.play ⟨none, false, false, none, false⟩ =
      ⟨none, false, false, none, false⟩ ∧
    AudioProcessor.pause ⟨none, false, false, none, false⟩ =
      ⟨none, false, false, none, false⟩ ∧
    AudioProcessor.seek ⟨none, false, false, none, false⟩ (1/2) =
      ⟨none, false, false, none, false⟩ :=
  playback_noop_without_source ⟨none, false, false, none, false⟩ (1/2) rfl rfl

/-- Claim C4 counterexample: for the spectrum [0, 0, 1, 1] (N = 4, third = 1)
the high third [2*third, N) holds the two bins 1, 1 with arithmetic mean 1,
but getFrequencyBands returns treble = (1 + 1) / third = 2: the treble sum is
divided by floor(N/3), not by the number of bins actually in the range. -/
theorem bands_treble_not_range_mean :
    (getFrequencyBands [0, 0, 1, 1]).treble ≠
      (([0, 0, 1, 1] : List ℚ).drop (2 * (([0, 0, 1, 1] : List ℚ).length / 3))).sum /
        (([0, 0, 1, 1] : List ℚ).drop (2 * (([0, 0, 1, 1] : List ℚ).length / 3))).length := by
  norm_num [getFrequencyBands]

/-- Claim C4 amended: with third = floor(N/3), bass and mid are the arithmetic
means of the contiguous bin ranges [0, third) and [third, 2*third); treble is
the sum over [2*third, N) divided by third, which equals that range's
arithmetic mean exactly when 3 divides N (otherwise the range is wider than
third and the returned value overstates its mean). -/
theorem bands_thirds_means (data : List ℚ) (h : 0 < data.length / 3) :
    ((getFrequencyBands data).bass =
        (data.take (data.length / 3)).sum / (data.take (data.length / 3)).length) ∧
    ((getFrequencyBands data).mid =
        ((data.drop (data.length / 3)).take (data.length / 3)).sum /
          ((data.drop (data.length / 3)).take (data.length / 3)).length) ∧
    ((getFrequencyBands data).treble =
        (data.drop (2 * (data.length / 3))).sum / (data.length / 3 : ℕ)) ∧
    (3 ∣ data.length →
      (getFrequencyBands data).treble =
        (data.drop (2 * (data.length / 3))).sum /
          (data.drop (2 * (data.length / 3))).length) := by
  have hthird : data.length / 3 ≤ data.length := Nat.div_le_self _ _
  have h2third : 2 * (data.length / 3) ≤ data.length := by
    have := Nat.div_mul_le_self data.length 3
    omega
  refine ⟨?_, ?_, rfl, ?_⟩
  · have hlen : (data.take (data.length / 3)).length = data.length / 3 := by
      rw [List.length_take]
      omega
    rw [hlen]
    rfl
  · have hlen : ((data.drop (data.length / 3)).take (data.length / 3)).length
        = data.length / 3 := by
      rw [List.length_take, List.length_drop]
      omega
    rw [hlen]
    rfl
  · intro hdvd
    have hlen : (data.drop (2 * (data.length / 3))).length = data.length / 3 := by
      rw [List.length_drop]
      obtain ⟨k, hk⟩ := hdvd
      omega
    rw [hlen]
    rfl

/-- Witness for bands_thirds_means on the six-bin spectrum [1,2,3,4,5,6]
(N = 6, third = 2, 3 divides N). -/
theorem bands_thirds_means_witness :
    (((getFrequencyBands [1, 2, 3, 4, 5, 6]).bass =
        (([1, 2, 3, 4, 5, 6] : List ℚ).take (([1, 2, 3, 4, 5, 6] : List ℚ).length / 3)).sum /
          (([1, 2, 3, 4, 5, 6] : List ℚ).take (([1, 2, 3, 4, 5, 6] : List ℚ).length / 3)).length) ∧
      ((getFrequencyBands [1, 2, 3, 4, 5, 6]).mid =
        ((([1, 2, 3, 4, 5, 6] : List ℚ).drop (([1, 2, 3, 4, 5, 6] : List ℚ).length / 3)).take
            (([1, 2, 3, 4, 5, 6] : List ℚ).length / 3)).sum /
          ((([1, 2, 3, 4, 5, 6] : List ℚ).drop (([1, 2, 3, 4, 5, 6] : List ℚ).length / 3)).take
            (([1, 2, 3, 4, 5, 6] : List ℚ).length / 3)).length) ∧
      ((getFrequencyBands [1, 2, 3, 4, 5, 6]).treble =
        (([1, 2, 3, 4, 5, 6] : List ℚ).drop
            (2 * (([1, 2, 3, 4, 5, 6] : List ℚ).length / 3))).sum /
          ((([1, 2, 3, 4, 5, 6] : List ℚ).length / 3 : ℕ))) ∧
      (3 ∣ ([1, 2, 3, 4, 5, 6] : List ℚ).length →
        (getFrequencyBands [1, 2, 3, 4, 5, 6]).treble =
          (([1, 2, 3, 4, 5, 6] : List ℚ).drop
              (2 * (([1, 2, 3, 4, 5, 6] : List ℚ).length / 3))).sum /
            (([1, 2, 3, 4, 5, 6] : List ℚ).drop
              (2 * (([1, 2, 3, 4, 5, 6] : List ℚ).length / 3))).length)) :=
  bands_thirds_means [1, 2, 3, 4, 5, 6] (by norm_num)

/-- Claim C7: the per-bucket exponential smoothing update with fixed alpha in
(0,1) and a constant raw input: the distance |smoothed - raw| never increases
tick over tick, strictly decreases while smoothed differs from raw, and for
every positive epsilon it is eventually below epsilon. -/
theorem smoothing_converges (alpha raw s0 ε : ℚ)
    (h0 : 0 < alpha) (h1 : alpha < 1) (hε : 0 < ε) :
    (∀ n, |smoothIter alpha raw s0 (n + 1) - raw| ≤ |smoothIter alpha raw s0 n - raw|) ∧
    (∀ n, smoothIter alpha raw s0 n ≠ raw →
      |smoothIter alpha raw s0 (n + 1) - raw| < |smoothIter alpha raw s0 n - raw|) ∧
    (∃ N, ∀ n, N ≤ n → |smoothIter alpha raw s0 n - raw| < ε) := by
  have key : ∀ n, smoothIter alpha raw s0 (n + 1) - raw
      = (1 - alpha) * (smoothIter alpha raw s0 n - raw) := by
    intro n
    show smoothStep alpha raw (smoothIter alpha raw s0 n) - raw = _
    unfold smoothStep
    ring
  have habs : ∀ n, |smoothIter alpha raw s0 (n + 1) - raw|
      = (1 - alpha) * |smoothIter alpha raw s0 n - raw| := by
    intro n
    rw [key, abs_mul, abs_of_nonneg (by linarith : (0:ℚ) ≤ 1 - alpha)]
  have closed : ∀ n, |smoothIter alpha raw s0 n - raw|
      = (1 - alpha) ^ n * |s0 - raw| := by
    intro n
    induction n with
    | zero => simp [smoothIter]
    | succ k ih => rw [habs, ih]; ring
  refine ⟨?_, ?_, ?_⟩
  · intro n
    rw [habs]
    have hnn := abs_nonneg (smoothIter alpha raw s0 n - raw)
    nlinarith
  · intro n hne
    rw [habs]
    have hpos : 0 < |smoothIter alpha raw s0 n - raw| :=
      abs_pos.mpr (sub_ne_zero.mpr hne)
    nlinarith
  · have hC : (0:ℚ) ≤ |s0 - raw| := abs_nonneg _
    have hden : (0:ℚ) < |s0 - raw| + 1 := by linarith
    have hq : (0:ℚ) < ε / (|s0 - raw| + 1) := div_pos hε hden
    obtain ⟨N, hN⟩ := exists_pow_lt_of_lt_one hq (by linarith : 1 - alpha < 1)
    refine ⟨N, fun n hn => ?_⟩
    rw [closed]
    have hmono : (1 - alpha) ^ n ≤ (1 - alpha) ^ N :=
      pow_le_pow_of_le_one (by linarith) (by linarith) hn
    have h2 : (1 - alpha) ^ n * |s0 - raw| ≤ (1 - alpha) ^ N * |s0 - raw| :=
      mul_le_mul_of_nonneg_right hmono hC
    have h3 : (1 - alpha) ^ N * |s0 - raw| ≤ ε / (|s0 - raw| + 1) * |s0 - raw| :=
      mul_le_mul_of_nonneg_right hN.le hC
    have h4 : ε / (|s0 - raw| + 1) * |s0 - raw| < ε := by
      rw [div_mul_eq_mul_div, div_lt_iff₀ hden]
      nlinarith
    linarith

/-- Witness for smoothing_converges at the two configured smoothing factors
(0.25 in the bar renderer, 0.15 in the circular renderer), raw input 200,
initial value 0 and epsilon 1. -/
theorem smoothing_converges_witness :
    ((∀ n, |smoothIter (1/4) 200 0 (n + 1) - 200| ≤ |smoothIter (1/4) 200 0 n - 200|) ∧
      (∀ n, smoothIter (1/4) 200 0 n ≠ 200 →
        |smoothIter (1/4) 200 0 (n + 1) - 200| < |smoothIter (1/4) 200 0 n - 200|) ∧
      (∃ N, ∀ n, N ≤ n → |smoothIter (1/4) 200 0 n - 200| < 1)) ∧
    ((∀ n, |smoothIter (3/20) 200 0 (n + 1) - 200| ≤ |smoothIter (3/20) 200 0 n - 200|) ∧
      (∀ n, smoothIter (3/20) 200 0 n ≠ 200 →
        |smoothIter (3/20) 200 0 (n + 1) - 200| < |smoothIter (3/20) 200 0 n - 200|) ∧
      (∃ N, ∀ n, N ≤ n → |smoothIter (3/20) 200 0 n - 200| < 1)) :=
  ⟨smoothing_converges (1/4) 200 0 1 (by norm_num) (by norm_num) (by norm_num),
    smoothing_converges (3/20) 200 0 1 (by norm_num) (by norm_num) (by norm_num)⟩

/-- Claim C1 counterexample: in the variant revision (peakData *= 0.98, no
floor) two ticks with raw inputs 250 then 74 from the zero state end with
peak = 73.5 strictly below smoothed = 74.7: the decayed peak is not floored
at the current smoothed value. -/
theorem peak_floor_violated_in_variant :
    (barsPeakStepVariant (barsPeakStepVariant ⟨0, 0⟩ 250) 74).peakData <
      (barsPeakStepVariant (barsPeakStepVariant ⟨0, 0⟩ 250) 74).smoothedData := by
  norm_num [barsPeakStepVariant]

/-- Claim C1 amended: in the main bar renderer the peak physics keeps
peak[i] >= smoothed[i] exactly (epsilon 0) at the end of every tick,
unconditionally: the decayed peak is floored at the smoothed value with
Math.max. In the variant revision the decay peakData *= 0.98 has no floor;
there, for a non-negative smoothed value and raw input (as produced by the
uint8 pipeline), only peak[i] >= 0.98 * smoothed[i] holds after the tick. -/
theorem peak_hold_floor (st : BarState) (d : ℚ)
    (stv : BarStateV) (dv : ℚ) (h0 : 0 ≤ stv.smoothedData) (h1 : 0 ≤ dv) :
    (barsPeakStep st d).smoothedData ≤ (barsPeakStep st d).peakData ∧
    (98/100) * (barsPeakStepVariant stv dv).smoothedData ≤
      (barsPeakStepVariant stv dv).peakData := by
  constructor
  · simp only [barsPeakStep]
    split
    · exact le_refl _
    · exact le_max_right _ _
  · simp only [barsPeakStepVariant]
    split
    · rename_i hlt
      dsimp only
      nlinarith
    · rename_i hge
      dsimp only
      nlinarith

/-- Witness for peak_hold_floor at bucket state (smoothed 10, peak 20,
velocity 0) with raw input 5 on both revisions. -/
theorem peak_hold_floor_witness :
    ((barsPeakStep ⟨10, 20, 0⟩ 5).smoothedData ≤ (barsPeakStep ⟨10, 20, 0⟩ 5).peakData) ∧
    ((98/100) * (barsPeakStepVariant ⟨10, 20⟩ 5).smoothedData ≤
      (barsPeakStepVariant ⟨10, 20⟩ 5).peakData) :=
  peak_hold_floor ⟨10, 20, 0⟩ 5 ⟨10, 20⟩ 5 (by norm_num) (by norm_num)

/-- Every onset time recorded from a state whose last hit was lastBassHit
lies strictly above lastBassHit + interval. -/
theorem onsetTimes_lower_bound (threshold interval speed : ℚ) (hint : 0 ≤ interval) :
    ∀ (inps : List TickInput) (time lastBassHit : ℚ),
      ∀ t ∈ onsetTimes threshold interval speed time lastBassHit inps,
        lastBassHit + interval < t := by
  intro inps
  induction inps with
  | nil =>
      intro time last t ht
      simp [onsetTimes] at ht
  | cons inp rest ih =>
      intro time last t ht
      simp only [onsetTimes] at ht
      by_cases hc : threshold < inp.bass ∧ interval < time + inp.delta * speed - last
      · rw [if_pos hc] at ht
        rcases List.mem_cons.mp ht with h | h
        · subst h
          linarith [hc.2]
        · have hrec := ih _ _ t h
          linarith [hc.2]
      · rw [if_neg hc] at ht
        exact ih _ _ t ht

/-- Recorded onset times are pairwise separated by more than the refractory
interval. -/
theorem onsetTimes_separated (threshold interval speed : ℚ) (hint : 0 ≤ interval) :
    ∀ (inps : List TickInput) (time lastBassHit : ℚ),
      (onsetTimes threshold interval speed time lastBassHit inps).Pairwise
        (fun a b => a + interval < b) := by
  intro inps
  induction inps with
  | nil =>
      intro time last
      simp [onsetTimes]
  | cons inp rest ih =>
      intro time last
      simp only [onsetTimes]
      split
      · refine List.Pairwise.cons ?_ (ih _ _)
        intro b hb
        exact onsetTimes_lower_bound threshold interval speed hint rest _ _ b hb
      · exact ih _ _

/-- Claim C3: bass-onset detection honors its refractory interval. With the
constructor state (time 0, lastBassHit 0), over any tick sequence with any
deltas and bass values (including a signal above threshold on every tick),
any two recorded onset events are more than the configured minimum interval
apart on simulation time: 0.12 s at threshold 160 in the flow-field
revision, 0.15 s at threshold 180 in the earlier revision. -/
theorem bass_onset_refractory (speed : ℚ) (inps : List TickInput) :
    (onsetTimes 160 (12/100) speed 0 0 inps).Pairwise
      (fun a b => a + 12/100 < b) ∧
    (onsetTimes 180 (15/100) speed 0 0 inps).Pairwise
      (fun a b => a + 15/100 < b) :=
  ⟨onsetTimes_separated 160 (12/100) speed (by norm_num) inps 0 0,
    onsetTimes_separated 180 (15/100) speed (by norm_num) inps 0 0⟩

/-- The guarded spawn loop keeps a pool at or under the cap. -/
theorem spawnCapped_le (maxParticles : ℕ) :
    ∀ (n len : ℕ), len ≤ maxParticles →
      spawnCapped maxParticles len n ≤ maxParticles := by
  intro n
  induction n with
  | zero =>
      intro len h
      simpa [spawnCapped] using h
  | succ k ih =>
      intro len h
      simp only [spawnCapped]
      split
      · exact ih (len + 1) (by omega)
      · exact h

/-- One ParticlesVisualizer.draw tick keeps the pool at or under the cap. -/
theorem particlesTick_le (maxParticles len : ℕ) (inp : ParticlesTickInput)
    (h : len ≤ maxParticles) :
    particlesTick maxParticles len inp ≤ maxParticles :=
  le_trans (Nat.sub_le _ _)
    (spawnCapped_le _ _ _ (spawnCapped_le _ _ _ h))

/-- Folding particle ticks from any pool at or under the cap stays there. -/
theorem particles_foldl_le (maxParticles : ℕ) :
    ∀ (inps : List ParticlesTickInput) (len : ℕ), len ≤ maxParticles →
      inps.foldl (particlesTick maxParticles) len ≤ maxParticles := by
  intro inps
  induction inps with
  | nil =>
      intro len h
      simpa using h
  | cons i rest ih =>
      intro len h
      exact ih _ (particlesTick_le _ _ _ h)

/-- The circular burst spawn respects the 80-particle cap. -/
theorem circularBurstSpawn_le (len : ℕ) (hit : Bool) (k : ℕ) (h : len ≤ 80) :
    circularBurstSpawn len hit k ≤ 80 := by
  unfold circularBurstSpawn
  split
  · rename_i hc
    omega
  · exact h

/-- Folding circular ticks from any pool at or under the cap stays there. -/
theorem circular_foldl_le :
    ∀ (inps : List CircularTickInput) (len : ℕ), len ≤ 80 →
      inps.foldl circularTick len ≤ 80 := by
  intro inps
  induction inps with
  | nil =>
      intro len h
      simpa using h
  | cons i rest ih =>
      intro len h
      apply ih
      unfold circularTick
      exact le_trans (Nat.sub_le _ _) (min_le_right _ _)

/-- The orbit pool size never exceeds 30. -/
theorem orbitRun_le (n : ℕ) : orbitRun n ≤ 30 := by
  cases n with
  | zero => simp [orbitRun]
  | succ k =>
      rw [orbitRun, Function.iterate_succ_apply']
      exact min_le_right _ _

/-- Claim C2: every renderer particle pool with a configured cap stays at or
under its cap after any finite sequence of draw ticks with arbitrary audio
input: the ParticlesVisualizer pool (cap maxParticles, 600 in the flow-field
revision and 500 in the earlier one) whose spawnParticles and createExplosion
loops check the cap before each push, the CircularVisualizer burst pool
(cap 80), and its orbit pool (cap 30). -/
theorem particle_pools_capped (maxParticles : ℕ) (inps : List ParticlesTickInput)
    (cinps : List CircularTickInput) (n : ℕ) :
    particlesRun maxParticles inps ≤ maxParticles ∧
    circularRun cinps ≤ 80 ∧
    orbitRun n ≤ 30 :=
  ⟨particles_foldl_le maxParticles inps 0 (Nat.zero_le _),
    circular_foldl_le cinps 0 (by omega),
    orbitRun_le n⟩

/-- An `x || fallback` dimension is positive for a positive fallback. -/
theorem ite_cast_pos (m : ℕ) (fb : ℤ) (hfb : 0 < fb) :
    0 < if m ≠ 0 then (m : ℤ) else fb := by
  split
  · rename_i h
    exact_mod_cast Nat.pos_of_ne_zero h
  · exact hfb

/-- handleResize always restores positive cached dimensions (the 800/600
fallbacks catch a zero canvas). -/
theorem handleResize_pos (container : Option (ℕ × ℕ)) (st : VisDims) :
    0 < (handleResize container st).width ∧
      0 < (handleResize container st).height := by
  unfold handleResize
  dsimp only
  exact ⟨ite_cast_pos _ _ (by norm_num), ite_cast_pos _ _ (by norm_num)⟩

/-- Claim C8: when the cached canvas width or height is zero, negative or
unset at the start of a draw tick, the renderer short-circuits: it attempts
a resize, clears, and draws no content for that frame (the embedding is a
total function, so no error is raised); with valid dimensions the tick
clears and draws content; and after any handleResize the dimensions are
positive again, so the following tick renders normally. -/
theorem dimension_guard_short_circuits (container c2 : Option (ℕ × ℕ)) (st : VisDims) :
    (st.width ≤ 0 ∨ st.height ≤ 0 →
      drawTick container st = (handleResize container st, ⟨true, true, false⟩)) ∧
    (0 < st.width → 0 < st.height →
      drawTick container st = (st, ⟨false, true, true⟩)) ∧
    (0 < (handleResize container st).width ∧
      0 < (handleResize container st).height) ∧
    (drawTick c2 (handleResize container st)).2.drewContent = true := by
  refine ⟨?_, ?_, handleResize_pos container st, ?_⟩
  · intro h
    simp [drawTick, h]
  · intro h1 h2
    have hng : ¬(st.width ≤ 0 ∨ st.height ≤ 0) := by
      simp only [not_or, not_le]
      exact ⟨h1, h2⟩
    simp [drawTick, hng]
  · have hp := handleResize_pos container st
    have hng : ¬((handleResize container st).width ≤ 0 ∨
        (handleResize container st).height ≤ 0) := by
      simp only [not_or, not_le]
      exact ⟨hp.1, hp.2⟩
    simp [drawTick, hng]

/-- Witness for dimension_guard_short_circuits: a state with unset (zero)
dimensions short-circuits, and the tick after its resize draws content. -/
theorem dimension_guard_witness :
    drawTick (some (1024, 768)) ⟨0, 0, 0, 0⟩ =
      (handleResize (some (1024, 768)) ⟨0, 0, 0, 0⟩, ⟨true, true, false⟩) ∧
    (drawTick none (handleResize (some (1024, 768)) ⟨0, 0, 0, 0⟩)).2.drewContent = true :=
  ⟨(dimension_guard_short_circuits (some (1024, 768)) none ⟨0, 0, 0, 0⟩).1
      (Or.inl le_rfl),
    (dimension_guard_short_circuits (some (1024, 768)) none ⟨0, 0, 0, 0⟩).2.2.2⟩

/-- Every entry of the synthesized far terrain row lies in [0, 200]. -/
theorem newTerrainRow_bounds (data : List ℚ) (s : ℚ) :
    ∀ c ∈ newTerrainRow data s, 0 ≤ c ∧ c ≤ 200 := by
  intro c hc
  simp only [newTerrainRow, List.mem_map, List.mem_range] at hc
  obtain ⟨x, hx, rfl⟩ := hc
  have hx59 : (x : ℚ) ≤ 59 := by
    exact_mod_cast Nat.lt_succ_iff.mp hx
  have hx0 : (0 : ℚ) ≤ (x : ℚ) := Nat.cast_nonneg x
  have habs : |(x : ℚ) - 30| ≤ 30 := abs_le.mpr ⟨by linarith, by linarith⟩
  have hcf : 0 ≤ 1 - |(x : ℚ) - 30| / 30 := by
    have hdiv : |(x : ℚ) - 30| / 30 ≤ 1 := by
      rw [div_le_one (by norm_num)]
      exact habs
    linarith
  have hval : 0 ≤ clamp (data.getD (x * data.length / terrainWidth) 0 / 255) 0 1 :=
    le_max_left 0 _
  have hcs : 0 ≤ clamp s (1/10) 3 :=
    le_trans (by norm_num) (le_max_left (1/10) _)
  constructor
  · exact le_min (by positivity) (by norm_num)
  · exact min_le_right _ _

/-- TerrainVisualizer.updateTerrain preserves the [0, 200] bound on every
cell: the shifted rows are attenuated by 0.95 and the new far row is clamped
to at most 200 and built from non-negative factors. -/
theorem updateTerrain_bounds (t : List (List ℚ)) (data : List ℚ) (s : ℚ)
    (hinv : ∀ row ∈ t, ∀ c ∈ row, 0 ≤ c ∧ c ≤ 200) :
    ∀ row ∈ updateTerrain t data s, ∀ c ∈ row, 0 ≤ c ∧ c ≤ 200 := by
  intro row hrow
  simp only [updateTerrain, List.mem_cons] at hrow
  rcases hrow with rfl | hrow
  · exact newTerrainRow_bounds data s
  · simp only [List.mem_map] at hrow
    obtain ⟨row0, hrow0, rfl⟩ := hrow
    intro c hc
    simp only [List.mem_map] at hc
    obtain ⟨c0, hc0, rfl⟩ := hc
    have h0 := hinv row0 (List.mem_of_mem_dropLast hrow0) c0 hc0
    constructor
    · nlinarith [h0.1]
    · nlinarith [h0.2]

/-- Claim C10: starting from the all-zero grid, after any sequence of
updateTerrain calls with arbitrary spectra and arbitrary sensitivity
settings, every terrain cell stays in [0, 200]: the synthesized far row is
clamped to at most 200 (with the sensitivity clamped to [0.1, 3.0]) and the
row shift only multiplies existing values by the decay factor 0.95. -/
theorem terrain_heights_bounded (calls : List (List ℚ × ℚ)) :
    ∀ row ∈ calls.foldl (fun t c => updateTerrain t c.1 c.2) initTerrain,
      ∀ c ∈ row, 0 ≤ c ∧ c ≤ 200 := by
  have main : ∀ (calls : List (List ℚ × ℚ)) (t : List (List ℚ)),
      (∀ row ∈ t, ∀ c ∈ row, 0 ≤ c ∧ c ≤ 200) →
      ∀ row ∈ calls.foldl (fun t c => updateTerrain t c.1 c.2) t,
        ∀ c ∈ row, 0 ≤ c ∧ c ≤ 200 := by
    intro calls
    induction calls with
    | nil =>
        intro t h
        simpa using h
    | cons c rest ih =>
        intro t h
        exact ih _ (updateTerrain_bounds _ _ _ h)
  apply main
  intro row hrow c hc
  simp only [initTerrain, List.mem_replicate] at hrow
  rw [hrow.2] at hc
  simp only [List.mem_replicate] at hc
  rw [hc.2]
  norm_num

/-- Witness for terrain_heights_bounded: in the initial grid (no calls yet)
the cell 0 of the first row satisfies the bound. -/
theorem terrain_heights_bounded_witness :
    (0 : ℚ) ≤ 0 ∧ (0 : ℚ) ≤ 200 :=
  terrain_heights_bounded [] (List.replicate terrainWidth 0)
    (by simp [initTerrain, terrainDepth]) 0 (by simp [terrainWidth])

end SpectrumViz
